import Mathlib

/-!
Shallow embedding of `src/components/input.py` from the
naver_dict_hanja_crawler repository.

Modelling conventions:
* Python dictionaries are insertion-ordered association lists (`Record`);
  `d.get`, `d[k]`, `d[k] = v` and `d.update(...)` are `pyGet?`, `pyGetD`,
  `pySet` and `updateGroupdict`.
* Python exceptions are `Except PyError`.
* The regex engine is an external primitive: a `MatchFn` maps a pattern
  string and a line to `none` (no match, `re.match` returned `None`) or
  `some gd` where `gd` is the ordered `groupdict()` — group names paired
  with `some` matched text, or `none` for a named group that did not
  participate in the match (Python puts `None` in the groupdict then).
* File reading is an excluded collaborator: `process_txt_file` receives
  the file's text directly.  The scraping collaborators `scrape_hanja`
  and `scrape_multiple_words` are parameters of `scrape_data`.
-/

deriving instance DecidableEq for Except

/-- A Python value occurring in the pipeline's records: a string, `None`,
or a list of strings (produced by `str.split`). -/
inductive Value where
  | vStr : String → Value
  | vNone : Value
  | vList : List String → Value
deriving DecidableEq

/-- A Python dict from field names to values, as an insertion-ordered
association list without duplicate keys in any dict the code builds. -/
abbrev Record := List (String × Value)

/-- Lookup (`k in d` / `d[k]`): value of the first entry holding `k`. -/
def pyGet? : Record → String → Option Value
  | [], _ => none
  | (k1, v) :: rest, k => if k1 = k then some v else pyGet? rest k

/-- Drop leading whitespace characters. -/
def dropLeadingWs : List Char → List Char
  | [] => []
  | c :: rest => if c.isWhitespace then dropLeadingWs rest else c :: rest

/-- Python `s.split(sep)` on character lists, for a non-empty separator:
scan left to right, cutting at each non-overlapping occurrence of `sep`
(every caller in the repository uses `"\n"` or a `"\n\n"`-defaulted
delimiter).  The fuel argument, instantiated with the list's length,
only makes the recursion structural. -/
def splitSepFuel (sep : List Char) : Nat → List Char → List (List Char)
  | _, [] => [[]]
  | 0, l => [l]
  | fuel + 1, x :: rest =>
    if sep.isPrefixOf (x :: rest) then
      [] :: splitSepFuel sep fuel (List.drop (sep.length - 1) rest)
    else
      match splitSepFuel sep fuel rest with
      | [] => [[x]]
      | h :: t => (x :: h) :: t

/-- Python `s.split(sep)` for a non-empty separator string. -/
def pySplit (s sep : String) : List String :=
  (splitSepFuel sep.toList s.toList.length s.toList).map (fun l => String.mk l)

/-- Python `s.strip()`: remove leading and trailing whitespace. -/
def pyStrip (s : String) : String :=
  String.mk ((dropLeadingWs ((dropLeadingWs s.toList).reverse)).reverse)

/-- Python `d.get(k, default)`. -/
def pyGetD (r : Record) (k : String) (d : Value) : Value :=
  (pyGet? r k).getD d

/-- Python `d[k] = v`: replace the entry in place, else append. -/
def pySet : Record → String → Value → Record
  | [], k, v => [(k, v)]
  | (k1, v1) :: rest, k, v =>
    if k1 = k then (k, v) :: rest else (k1, v1) :: pySet rest k v

/-- The keys of a record, in order. -/
def keys (r : Record) : List String := r.map Prod.fst

/-- The Python exceptions that `input.py` can raise. -/
inductive PyError where
  | indexError : PyError
  | keyError : String → PyError
  | nameError : PyError
  | attributeError : PyError
  | valueErrorArity : Nat → Nat → PyError
  | valueErrorUnpack : Nat → PyError
  | valueErrorDatatype : Nat → PyError
deriving DecidableEq

/-- A pattern specification as dispatched by `parse_data_by_regex`:
a regex string, a tuple (modelled by its list of elements), or a value
of any other type. -/
inductive Pattern where
  | str : String → Pattern
  | tup : List String → Pattern
  | other : Pattern
deriving DecidableEq

/-- `re.match(...).groupdict()`: group name to matched text or `None`. -/
abbrev GroupDict := List (String × Option String)

/-- The external regex engine: pattern string and line to optional
groupdict (`none` models `re.match` returning `None`). -/
abbrev MatchFn := String → String → Option GroupDict

/-- Convert a groupdict value to a record value (`None` stays null). -/
def gdValue : Option String → Value
  | some s => Value.vStr s
  | none => Value.vNone

/-- Python `result.update(match.groupdict())`. -/
def updateGroupdict (r : Record) (gd : GroupDict) : Record :=
  gd.foldl (fun acc p => pySet acc p.1 (gdValue p.2)) r

/-- Python `data.strip().split("\n")` at the top of `parse_data_by_regex`. -/
def linesOf (data : String) : List String := pySplit (pyStrip data) "\n"

/-- The `for i, pattern in enumerate(patterns)` loop of
`parse_data_by_regex` (input.py lines 24-44), with the source's exact
evaluation order: for a string pattern, `lines[i]` is read (IndexError
when out of range) and a match updates `result`; for a tuple pattern,
the unpacking `regex, delimiter, *rest = pattern` runs first (ValueError
for fewer than two elements), then the arity check (ValueError for more
than two), then `lines[i]`, then on a match `result.update(groupdict)`,
then `key = list(groupdict.keys())[0]` (IndexError on an empty
groupdict) and `result[key] = result[key].split(delimiter)`
(AttributeError when that value is not a string); any other pattern
raises ValueError naming the index. -/
def parseLoop (mf : MatchFn) (lines : List String) :
    Nat → Record → List Pattern → Except PyError Record
  | _, result, [] => .ok result
  | i, result, Pattern.str regex :: rest =>
    if h : i < lines.length then
      match mf regex (lines.get ⟨i, h⟩) with
      | some gd => parseLoop mf lines (i + 1) (updateGroupdict result gd) rest
      | none => parseLoop mf lines (i + 1) result rest
    else .error PyError.indexError
  | i, result, Pattern.tup elems :: rest =>
    match elems with
    | regex :: delim :: restEls =>
      match restEls with
      | _ :: _ => .error (PyError.valueErrorArity i elems.length)
      | [] =>
        if h : i < lines.length then
          match mf regex (lines.get ⟨i, h⟩) with
          | some gd =>
            match gd with
            | [] => .error PyError.indexError
            | (key, _) :: _ =>
              match pyGet? (updateGroupdict result gd) key with
              | some (Value.vStr s) =>
                parseLoop mf lines (i + 1)
                  (pySet (updateGroupdict result gd) key
                    (Value.vList (s.splitOn delim))) rest
              | some _ => .error PyError.attributeError
              | none => parseLoop mf lines (i + 1) (updateGroupdict result gd) rest
          | none => parseLoop mf lines (i + 1) result rest
        else .error PyError.indexError
    | _ => .error (PyError.valueErrorUnpack i)
  | i, _, Pattern.other :: _ => .error (PyError.valueErrorDatatype i)

/-- `parse_data_by_regex(data, patterns)` (input.py lines 7-46). -/
def parse_data_by_regex (mf : MatchFn) (data : String) (patterns : List Pattern) :
    Except PyError Record :=
  parseLoop mf (linesOf data) 0 [] patterns

/-- The per-chunk loop of `process_txt_file` (input.py lines 71-73):
parse each chunk in order, the first exception aborting the whole call. -/
def processChunks (mf : MatchFn) (patterns : List Pattern) :
    List String → Except PyError (List Record)
  | [] => .ok []
  | c :: rest =>
    match parse_data_by_regex mf c patterns with
    | .ok e =>
      match processChunks mf patterns rest with
      | .ok es => .ok (e :: es)
      | .error err => .error err
    | .error err => .error err

/-- `process_txt_file` (input.py lines 49-75), with the file's text
passed directly (file reading and path resolution are excluded I/O):
split the content on the delimiter and parse each chunk. -/
def process_txt_file (mf : MatchFn) (content : String) (patterns : List Pattern)
    (delimiter : String := "\n\n") : Except PyError (List Record) :=
  processChunks mf patterns (pySplit content delimiter)

/-- The source expression
`input_entry.get(key, scrapped_entry.get(key, None))` (input.py line 98). -/
def mergeVal (ie se : Record) (k : String) : Value :=
  pyGetD ie k (pyGetD se k Value.vNone)

/-- Building one merged dict (input.py lines 94-98): start from
`{"hanja": hanja}` and assign every schema key in order. -/
def merge_entry (ks : List String) (ie se : Record) (h : Value) : Record :=
  ks.foldl (fun acc key => pySet acc key (mergeVal ie se key)) [("hanja", h)]

/-- `merge_data_into_dict(entry_dict, input_data, scrapped_hanja)`
(input.py lines 78-102): zip the two lists (truncating at the shorter),
require `input_entry["hanja"]` (KeyError when absent), and build one
merged dict per pair.  Only the keys of `entry_dict` matter, so the
schema dict is passed as its ordered key list. -/
def merge_data_into_dict (ks : List String) :
    List Record → List Record → Except PyError (List Record)
  | ie :: irest, se :: srest =>
    match pyGet? ie "hanja" with
    | some h =>
      match merge_data_into_dict ks irest srest with
      | .ok rs => .ok (merge_entry ks ie se h :: rs)
      | .error e => .error e
    | none => .error (PyError.keyError "hanja")
  | _, _ => .ok []

/-- The comprehension `[entry[key] for entry in input_data]`:
KeyError at the first record lacking `key`. -/
def getAll (key : String) : List Record → Except PyError (List Value)
  | [] => .ok []
  | r :: rest =>
    match pyGet? r key with
    | some v =>
      match getAll key rest with
      | .ok vs => .ok (v :: vs)
      | .error e => .error e
    | none => .error (PyError.keyError key)

/-- The comprehension
`[(input_entry["hanja"], input_entry["words"]) for input_entry in input_data]`
(input.py lines 122-124), with Python's evaluation order per entry. -/
def getPairs : List Record → Except PyError (List (Value × Value))
  | [] => .ok []
  | r :: rest =>
    match pyGet? r "hanja" with
    | some h =>
      match pyGet? r "words" with
      | some w =>
        match getPairs rest with
        | .ok ps => .ok ((h, w) :: ps)
        | .error e => .error e
      | none => .error (PyError.keyError "words")
    | none => .error (PyError.keyError "hanja")

/-- `scrape_data(input_data, entry_dict)` (input.py lines 105-129),
parameterised by the two external scraping collaborators: build the
hanja list, the (hanja, words) pair list, call the collaborators, and
merge the input with the scraped hanja records. -/
def scrape_data (sh : List Value → List Record)
    (sw : List (Value × Value) → List Record)
    (input_data : List Record) (entryKeys : List String) :
    Except PyError (List Record × List Record) :=
  match getAll "hanja" input_data with
  | .error e => .error e
  | .ok hanjas =>
    match getPairs input_data with
    | .error e => .error e
    | .ok pairs =>
      match merge_data_into_dict entryKeys input_data (sh hanjas) with
      | .error e => .error e
      | .ok hanja_data => .ok (hanja_data, sw pairs)

/-- A modifier as dispatched by `apply_modifiers`: a whole-collection
function or a `(func, column)` tuple; the string is the identity the
warning logger prints (`__name__` or the tuple's text). -/
inductive Modifier where
  | whole : String → (List Record → Option (List Record)) → Modifier
  | fieldScoped : String → (Value → Option Value) → String → Modifier

/-- One handled modifier failure: the two `logger.warning` calls of
input.py lines 161-164, recording the modifier identity and the current
value of the loop variable `entry`. -/
structure Warning where
  modName : String
  entry : Record
deriving DecidableEq

/-- The `for entry in data` loop of a `(func, column)` modifier
(input.py lines 154-156): update the column of each record holding it;
a raise from `func` stops the loop, leaving that record and all later
ones untouched.  Returns the resulting records, the final binding of
the loop variable `entry`, and whether `func` raised. -/
def applyFieldLoop (f : Value → Option Value) (col : String) :
    List Record → List Record × Option Record × Bool
  | [] => ([], none, false)
  | e :: rest =>
    match pyGet? e col with
    | some v =>
      match f v with
      | some w =>
        match applyFieldLoop f col rest with
        | (rs, last, fl) => (pySet e col w :: rs, some (last.getD (pySet e col w)), fl)
      | none => (e :: rest, some e, true)
    | none =>
      match applyFieldLoop f col rest with
      | (rs, last, fl) => (e :: rs, some (last.getD e), fl)

/-- The effect the claimed behaviour of a `(func, column)` modifier has
on a single record: update the column when present and `func` succeeds,
else leave the record unchanged. -/
def applyField1 (f : Value → Option Value) (col : String) (r : Record) : Record :=
  match pyGet? r col with
  | some v =>
    match f v with
    | some w => pySet r col w
    | none => r
  | none => r

/-- The `for modifier in modifiers` loop of `apply_modifiers`
(input.py lines 148-166).  `le` is the current binding of the loop
variable `entry` (`none` while it is still unbound in this call): the
except-handler prints `entry`, so a failure handled while `entry` is
unbound raises NameError out of `apply_modifiers` itself. -/
def applyModifiersAux (le : Option Record) (warns : List Warning)
    (data : List Record) : List Modifier → Except PyError (List Record × List Warning)
  | [] => .ok (data, warns)
  | Modifier.whole name f :: rest =>
    match f data with
    | some d2 => applyModifiersAux le warns d2 rest
    | none =>
      match le with
      | none => .error PyError.nameError
      | some e => applyModifiersAux le (warns ++ [⟨name, e⟩]) data rest
  | Modifier.fieldScoped name f col :: rest =>
    match applyFieldLoop f col data with
    | (d2, last, failed) =>
      match failed with
      | true =>
        applyModifiersAux (match last with | some l => some l | none => le)
          (warns ++ [⟨name, last.getD []⟩]) d2 rest
      | false =>
        applyModifiersAux (match last with | some l => some l | none => le)
          warns d2 rest

/-- `apply_modifiers(data, modifiers)` (input.py lines 132-166),
returning the resulting records together with the logged warnings.
`if not modifiers: return data` is the empty-list case (the Python
default `None` behaves the same as the empty list). -/
def applyModifiers (data : List Record) (modifiers : List Modifier) :
    Except PyError (List Record × List Warning) :=
  match modifiers with
  | [] => .ok (data, [])
  | m :: rest => applyModifiersAux none [] data (m :: rest)

/-- The dict comprehension `{key: None for key in entry_list.split("|")}`
keeps the first occurrence of each key. -/
def dedupKeys : List String → List String
  | [] => []
  | k :: rest => k :: (dedupKeys rest).filter (fun x => x != k)

/-- `process_hanja_txt` (input.py lines 169-203), parameterised by the
regex engine and the two scraping collaborators, with the input file's
text passed directly. -/
def process_hanja_txt (mf : MatchFn) (sh : List Value → List Record)
    (sw : List (Value × Value) → List Record)
    (content : String) (patterns : List Pattern) (entry_list : String)
    (hanja_modifiers words_modifiers : List Modifier) :
    Except PyError (List Record × List Record) :=
  match process_txt_file mf content patterns "\n\n" with
  | .error e => .error e
  | .ok input_hanja =>
    match scrape_data sh sw input_hanja (dedupKeys (entry_list.splitOn "|")) with
    | .error e => .error e
    | .ok (hanja_data, scrapped_words) =>
      match applyModifiers hanja_data hanja_modifiers with
      | .error e => .error e
      | .ok (hd, _) =>
        match applyModifiers scrapped_words words_modifiers with
        | .error e => .error e
        | .ok (sw2, _) => .ok (hd, sw2)

/-- Modelled from the spec, claim C1's own words for the merged value:
the primary's value when the field is present AND non-null there, else
the secondary's value when present, else null. -/
def claim_spec_value (ie se : Record) (k : String) : Value :=
  match pyGet? ie k with
  | some v =>
    match v with
    | Value.vNone =>
      match pyGet? se k with
      | some w => w
      | none => Value.vNone
    | _ => v
  | none =>
    match pyGet? se k with
    | some w => w
    | none => Value.vNone

/-- The amended merge rule: the primary's value whenever the field is
present there (a null value still wins), else the secondary's value
when present, else null. -/
def amended_spec_value (ie se : Record) (k : String) : Value :=
  match pyGet? ie k with
  | some v => v
  | none =>
    match pyGet? se k with
    | some w => w
    | none => Value.vNone

/-- Every pattern in the list is a single regex string. -/
def allStr (ps : List Pattern) : Bool :=
  ps.all (fun p => match p with | Pattern.str _ => true | _ => false)

/-- A pattern spec that is neither a regex string nor a two-element
tuple: any non-string non-tuple value, or a tuple of three or more
elements. -/
def isMalformed : Pattern → Bool
  | Pattern.other => true
  | Pattern.tup (_ :: _ :: _ :: _) => true
  | _ => false

/-- The error is a configuration error naming pattern index `i`
(the two `ValueError`s of input.py lines 34 and 44). -/
def isConfigErrorAt : PyError → Nat → Bool
  | PyError.valueErrorArity j _, i => j == i
  | PyError.valueErrorDatatype j, i => j == i
  | _, _ => false

/-- The parse result is a configuration error naming pattern index `i`. -/
def resultIsConfigErrorAt (r : Except PyError Record) (i : Nat) : Bool :=
  match r with
  | .error e => isConfigErrorAt e i
  | .ok _ => false

/-- The record a successful parse of a chunk yields (defaulting to the
empty record on error; used only to state results about inputs on which
parsing provably succeeds). -/
def parse_ok (mf : MatchFn) (c : String) (ps : List Pattern) : Record :=
  match parse_data_by_regex mf c ps with
  | .ok r => r
  | .error _ => []

/-- The record lets a `(func, column)` loop iteration pass: the column
is absent, or `func` succeeds on its value. -/
def passesField (f : Value → Option Value) (col : String) (r : Record) : Bool :=
  match pyGet? r col with
  | some v => (f v).isSome
  | none => true

/-- `func` raises on this record's column value. -/
def failsField (f : Value → Option Value) (col : String) (r : Record) : Bool :=
  match pyGet? r col with
  | some v => (f v).isNone
  | none => false

/-- Running a list of modifiers none of which ever binds the loop
variable `entry` or raises: whole-collection modifiers that succeed,
and `(func, column)` modifiers reached with an empty collection. -/
def runWithoutEntry : List Record → List Modifier → Option (List Record)
  | d, [] => some d
  | d, Modifier.whole _ f :: rest =>
    match f d with
    | some d2 => runWithoutEntry d2 rest
    | none => none
  | d, Modifier.fieldScoped _ _ _ :: rest =>
    match d with
    | [] => runWithoutEntry [] rest
    | _ :: _ => none

/-- The record lacks `"hanja"` or lacks `"words"`. -/
def badHanjaWords (r : Record) : Bool :=
  (pyGet? r "hanja").isNone || (pyGet? r "words").isNone

/-- The call raised a KeyError on `"hanja"` or on `"words"`. -/
def failsWithHanjaWordsKeyError {α : Type} : Except PyError α → Bool
  | .error (PyError.keyError k) => k == "hanja" || k == "words"
  | _ => false

/-- The call returned normally. -/
def exceptIsOk {α : Type} : Except PyError α → Bool
  | .ok _ => true
  | .error _ => false

/-! ## Dictionary lemmas -/

theorem pyGet_pySet (r : Record) (k k2 : String) (v : Value) :
    pyGet? (pySet r k v) k2 = if k = k2 then some v else pyGet? r k2 := by
  induction r with
  | nil => simp [pySet, pyGet?]
  | cons p rest ih =>
    obtain ⟨k1, v1⟩ := p
    by_cases h1 : k1 = k
    · subst h1
      by_cases h2 : k1 = k2 <;> simp [pySet, pyGet?, h2]
    · simp only [pySet, if_neg h1, pyGet?, ih]
      by_cases h2 : k1 = k2
      · subst h2
        have h3 : ¬ k = k1 := fun hh => h1 hh.symm
        simp [h3]
      · simp [h2]

theorem mem_keys_pySet (r : Record) (k k2 : String) (v : Value) :
    k2 ∈ keys (pySet r k v) ↔ k2 = k ∨ k2 ∈ keys r := by
  induction r with
  | nil => simp [pySet, keys]
  | cons p rest ih =>
    obtain ⟨k1, v1⟩ := p
    by_cases h1 : k1 = k
    · subst h1
      simp [pySet, keys]
    · simp only [pySet, if_neg h1, keys, List.map_cons, List.mem_cons] at ih ⊢
      constructor
      · rintro (h | h)
        · exact Or.inr (Or.inl h)
        · rcases ih.mp h with h | h
          · exact Or.inl h
          · exact Or.inr (Or.inr h)
      · rintro (h | h | h)
        · exact Or.inr (ih.mpr (Or.inl h))
        · exact Or.inl h
        · exact Or.inr (ih.mpr (Or.inr h))

theorem pyGet_foldl_pySet (ks : List String) (g : String → Value) (acc : Record) (k : String) :
    pyGet? (ks.foldl (fun a key => pySet a key (g key)) acc) k
      = if k ∈ ks then some (g k) else pyGet? acc k := by
  induction ks generalizing acc with
  | nil => simp
  | cons key rest ih =>
    simp only [List.foldl_cons, ih (pySet acc key (g key)), pyGet_pySet, List.mem_cons]
    by_cases h1 : k ∈ rest
    · simp [h1]
    · by_cases h2 : key = k
      · subst h2; simp [h1]
      · have h3 : ¬ k = key := fun hh => h2 hh.symm
        simp [h1, h2, h3]

theorem mem_keys_foldl (ks : List String) (g : String → Value) (acc : Record) (k : String) :
    k ∈ keys (ks.foldl (fun a key => pySet a key (g key)) acc) ↔ k ∈ ks ∨ k ∈ keys acc := by
  induction ks generalizing acc with
  | nil => simp
  | cons key rest ih =>
    simp only [List.foldl_cons, ih (pySet acc key (g key)), mem_keys_pySet, List.mem_cons]
    tauto

/-! ## Merge lemmas -/

theorem mergeVal_eq_amended (ie se : Record) (k : String) :
    mergeVal ie se k = amended_spec_value ie se k := by
  unfold mergeVal pyGetD amended_spec_value
  cases pyGet? ie k <;> cases pyGet? se k <;> simp

theorem pyGet_merge_entry (ks : List String) (ie se : Record) (h : Value)
    (k : String) (hk : k ∈ ks) :
    pyGet? (merge_entry ks ie se h) k = some (amended_spec_value ie se k) := by
  rw [merge_entry, pyGet_foldl_pySet, if_pos hk, mergeVal_eq_amended]

theorem mem_keys_merge_entry (ks : List String) (ie se : Record) (h : Value) (k : String) :
    k ∈ keys (merge_entry ks ie se h) ↔ k = "hanja" ∨ k ∈ ks := by
  rw [merge_entry, mem_keys_foldl]
  simp [keys]
  tauto

theorem merge_error_eq (ks : List String) :
    ∀ input scr : List Record, ∀ e : PyError,
      merge_data_into_dict ks input scr = .error e → e = PyError.keyError "hanja" := by
  intro input
  induction input with
  | nil => intro scr e h; simp [merge_data_into_dict] at h
  | cons ie irest ih =>
    intro scr e h
    cases scr with
    | nil => simp [merge_data_into_dict] at h
    | cons se srest =>
      rw [merge_data_into_dict] at h
      cases hh : pyGet? ie "hanja" with
      | none =>
        rw [hh] at h
        injection h with h2
        exact h2.symm
      | some hv =>
        rw [hh] at h
        cases hrec : merge_data_into_dict ks irest srest with
        | ok rs => rw [hrec] at h; simp at h
        | error e3 =>
          rw [hrec] at h
          injection h with h2
          subst h2
          exact ih srest _ hrec

/-! ## Claim C1 — merge precedence -/

/-- C1 counterexample: with primary `{"hanja": "木", "meaning": None}`
(a null value, as a non-participating named regex group produces) and
secondary `{"meaning": "wood"}`, the code keeps the primary's null
(`dict.get` goes by key presence alone), while the claim's rule —
primary only when present AND non-null — demands `"wood"`. -/
theorem c1_counterexample :
    merge_data_into_dict ["meaning"]
        [[("hanja", Value.vStr "木"), ("meaning", Value.vNone)]]
        [[("meaning", Value.vStr "wood")]]
      = .ok [[("hanja", Value.vStr "木"), ("meaning", Value.vNone)]]
    ∧ claim_spec_value [("hanja", Value.vStr "木"), ("meaning", Value.vNone)]
        [("meaning", Value.vStr "wood")] "meaning" = Value.vStr "wood"
    ∧ Value.vNone ≠ Value.vStr "wood" :=
  ⟨by decide, by decide, by decide⟩

/-- C1 (amended): for every schema key, the merged value is the
primary's value whenever the key is present there — a null value
included — else the secondary's value when present, else null. -/
theorem c1_merge_precedence_amended (ks : List String) :
    ∀ (input scr rs : List Record) (i : Nat) (k : String),
      merge_data_into_dict ks input scr = .ok rs →
      i < input.length → i < scr.length → k ∈ ks →
      pyGet? (rs.getD i []) k
        = some (amended_spec_value (input.getD i []) (scr.getD i []) k) := by
  intro input
  induction input with
  | nil =>
    intro scr rs i k hok hi hs hk
    simp at hi
  | cons ie irest ih =>
    intro scr rs i k hok hi hs hk
    cases scr with
    | nil => simp at hs
    | cons se srest =>
      rw [merge_data_into_dict] at hok
      cases hh : pyGet? ie "hanja" with
      | none => rw [hh] at hok; exact Except.noConfusion hok
      | some hv =>
        rw [hh] at hok
        cases hrec : merge_data_into_dict ks irest srest with
        | error e => rw [hrec] at hok; exact Except.noConfusion hok
        | ok rs2 =>
          rw [hrec] at hok
          injection hok with h2
          subst h2
          cases i with
          | zero =>
            simp only [List.getD_cons_zero]
            exact pyGet_merge_entry ks ie se hv k hk
          | succ n =>
            simp only [List.getD_cons_succ]
            exact ih srest rs2 n k hrec (Nat.lt_of_succ_lt_succ hi)
              (Nat.lt_of_succ_lt_succ hs) hk

/-- C1 witness: the amended merge rule evaluated at a concrete pair. -/
theorem c1_merge_precedence_witness :
    merge_data_into_dict ["meaning"]
        [[("hanja", Value.vStr "A"), ("meaning", Value.vNone)]]
        [[("meaning", Value.vStr "w")]]
      = .ok [[("hanja", Value.vStr "A"), ("meaning", Value.vNone)]]
    ∧ pyGet? (([[("hanja", Value.vStr "A"), ("meaning", Value.vNone)]] :
          List Record).getD 0 []) "meaning"
      = some (amended_spec_value
          (([[("hanja", Value.vStr "A"), ("meaning", Value.vNone)]] : List Record).getD 0 [])
          (([[("meaning", Value.vStr "w")]] : List Record).getD 0 []) "meaning") :=
  ⟨by decide,
   c1_merge_precedence_amended ["meaning"]
     [[("hanja", Value.vStr "A"), ("meaning", Value.vNone)]]
     [[("meaning", Value.vStr "w")]]
     [[("hanja", Value.vStr "A"), ("meaning", Value.vNone)]]
     0 "meaning" (by decide) (by decide) (by decide) (by decide)⟩

/-! ## Claim C6 — merged key set -/

/-- C6: every record produced by `merge_data_into_dict` has exactly the
key set `schema keys ∪ {"hanja"}`. -/
theorem c6_key_set (ks : List String) :
    ∀ (input scr rs : List Record) (r : Record),
      merge_data_into_dict ks input scr = .ok rs → r ∈ rs →
      (keys r).toFinset = insert "hanja" ks.toFinset := by
  intro input
  induction input with
  | nil =>
    intro scr rs r hok hr
    cases scr <;>
      (simp only [merge_data_into_dict] at hok
       injection hok with h2
       subst h2
       simp at hr)
  | cons ie irest ih =>
    intro scr rs r hok hr
    cases scr with
    | nil =>
      simp only [merge_data_into_dict] at hok
      injection hok with h2
      subst h2
      simp at hr
    | cons se srest =>
      rw [merge_data_into_dict] at hok
      cases hh : pyGet? ie "hanja" with
      | none => rw [hh] at hok; exact Except.noConfusion hok
      | some hv =>
        rw [hh] at hok
        cases hrec : merge_data_into_dict ks irest srest with
        | error e => rw [hrec] at hok; exact Except.noConfusion hok
        | ok rs2 =>
          rw [hrec] at hok
          injection hok with h2
          subst h2
          rcases List.mem_cons.mp hr with h | h
          · subst h
            ext a
            simp [List.mem_toFinset, Finset.mem_insert, mem_keys_merge_entry]
          · exact ih srest rs2 r hrec h

/-- C6 witness: key set of a concretely merged record. -/
theorem c6_key_set_witness :
    merge_data_into_dict ["meaning"] [[("hanja", Value.vStr "A")]] [[]]
      = .ok [[("hanja", Value.vStr "A"), ("meaning", Value.vNone)]]
    ∧ (keys [("hanja", Value.vStr "A"), ("meaning", Value.vNone)]).toFinset
      = insert "hanja" (["meaning"] : List String).toFinset :=
  ⟨by decide,
   c6_key_set ["meaning"] [[("hanja", Value.vStr "A")]] [[]]
     [[("hanja", Value.vStr "A"), ("meaning", Value.vNone)]]
     [("hanja", Value.vStr "A"), ("meaning", Value.vNone)]
     (by decide) (by decide)⟩

/-! ## Claim C7 — zip truncation -/

/-- C7: merging sequences of unequal length processes exactly the
common prefix of length `min` — the zip silently discards the longer
tail — and a successful merge returns `min` records; no index fault is
possible. -/
theorem c7_zip_truncation (ks : List String) :
    ∀ input scr : List Record,
      merge_data_into_dict ks input scr
        = merge_data_into_dict ks
            (input.take (min input.length scr.length))
            (scr.take (min input.length scr.length))
      ∧ (match merge_data_into_dict ks input scr with
         | .ok rs => rs.length = min input.length scr.length
         | .error _ => True) := by
  intro input
  induction input with
  | nil =>
    intro scr
    constructor
    · simp [merge_data_into_dict]
    · simp [merge_data_into_dict]
  | cons ie irest ih =>
    intro scr
    cases scr with
    | nil =>
      constructor
      · simp [merge_data_into_dict]
      · simp [merge_data_into_dict]
    | cons se srest =>
      obtain ⟨ih1, ih2⟩ := ih srest
      simp only [List.length_cons, Nat.succ_min_succ, List.take_succ_cons]
      constructor
      · simp only [merge_data_into_dict]
        cases hh : pyGet? ie "hanja" with
        | none => rfl
        | some hv => rw [← ih1]
      · simp only [merge_data_into_dict]
        cases hh : pyGet? ie "hanja" with
        | none => simp
        | some hv =>
          cases hrec : merge_data_into_dict ks irest srest with
          | error e => simp
          | ok rs2 =>
            rw [hrec] at ih2
            simp only [List.length_cons]
            simpa using ih2

/-! ## Claim C8 — mandatory identifying field -/

/-- C8: a merge call fails with `KeyError("hanja")` exactly when some
primary record of a processed (zipped) pair lacks `"hanja"`; when every
processed primary record has it, the call returns normally. -/
theorem c8_missing_hanja (ks : List String) :
    ∀ input scr : List Record,
      (merge_data_into_dict ks input scr = .error (PyError.keyError "hanja")
        ↔ (input.zip scr).any (fun p => (pyGet? p.1 "hanja").isNone) = true)
      ∧ ((input.zip scr).any (fun p => (pyGet? p.1 "hanja").isNone) = false →
          exceptIsOk (merge_data_into_dict ks input scr) = true) := by
  intro input
  induction input with
  | nil => intro scr; simp [merge_data_into_dict, exceptIsOk]
  | cons ie irest ih =>
    intro scr
    cases scr with
    | nil => simp [merge_data_into_dict, exceptIsOk]
    | cons se srest =>
      obtain ⟨ih1, ih2⟩ := ih srest
      cases hh : pyGet? ie "hanja" with
      | none =>
        constructor
        · simp only [merge_data_into_dict, hh, List.zip_cons_cons, List.any_cons]
          simp [hh]
        · intro hfalse
          simp [hh] at hfalse
      | some hv =>
        cases hA : (irest.zip srest).any (fun p => (pyGet? p.1 "hanja").isNone) with
        | true =>
          have hrec := ih1.mpr hA
          constructor
          · simp only [merge_data_into_dict, hh, hrec, List.zip_cons_cons, List.any_cons]
            simp [hh, hA]
          · intro hfalse
            simp [hh, hA] at hfalse
        | false =>
          have hok : exceptIsOk (merge_data_into_dict ks irest srest) = true := ih2 hA
          cases hrec : merge_data_into_dict ks irest srest with
          | error e => rw [hrec] at hok; simp [exceptIsOk] at hok
          | ok rs2 =>
            constructor
            · simp only [merge_data_into_dict, hh, hrec, List.zip_cons_cons, List.any_cons]
              simp [hh, hA]
            · intro hfalse
              simp only [merge_data_into_dict, hh, hrec]
              simp [exceptIsOk]

/-- C8 witness: a concrete all-hanja merge returns normally. -/
theorem c8_missing_hanja_witness :
    ((([[("hanja", Value.vStr "A")]] : List Record).zip ([[]] : List Record)).any
        (fun p => (pyGet? p.1 "hanja").isNone) = false)
    ∧ exceptIsOk (merge_data_into_dict ["k"] [[("hanja", Value.vStr "A")]] [[]]) = true :=
  ⟨by decide, (c8_missing_hanja ["k"] [[("hanja", Value.vStr "A")]] [[]]).2 (by decide)⟩

/-! ## Parse-loop lemmas -/

theorem allStr_cons (p : Pattern) (ps : List Pattern) :
    allStr (p :: ps) = true → (∃ r, p = Pattern.str r) ∧ allStr ps = true := by
  intro h
  rw [allStr, List.all_cons, Bool.and_eq_true] at h
  obtain ⟨h1, h2⟩ := h
  cases p with
  | str r => exact ⟨⟨r, rfl⟩, h2⟩
  | tup l => simp at h1
  | other => simp at h1

theorem parseLoop_allStr_short (mf : MatchFn) (lines : List String) :
    ∀ (ps : List Pattern) (i : Nat) (res : Record),
      allStr ps = true → lines.length < i + ps.length → ps ≠ [] →
      parseLoop mf lines i res ps = .error PyError.indexError := by
  intro ps
  induction ps with
  | nil => intro i res _ _ hne; exact absurd rfl hne
  | cons p rest ih =>
    intro i res hall hlen _
    obtain ⟨⟨r, hp⟩, hrest⟩ := allStr_cons p rest hall
    subst hp
    rw [parseLoop]
    by_cases h : i < lines.length
    · rw [dif_pos h]
      have hne : rest ≠ [] := by
        intro hr
        subst hr
        simp at hlen
        omega
      cases mf r (lines.get ⟨i, h⟩) with
      | some gd =>
        exact ih (i + 1) (updateGroupdict res gd) hrest (by simp at hlen ⊢; omega) hne
      | none => exact ih (i + 1) res hrest (by simp at hlen ⊢; omega) hne
    · rw [dif_neg h]

theorem parseLoop_allStr_ok (mf : MatchFn) (lines : List String) :
    ∀ (ps : List Pattern) (i : Nat) (res : Record),
      allStr ps = true → i + ps.length ≤ lines.length →
      ∃ r, parseLoop mf lines i res ps = .ok r := by
  intro ps
  induction ps with
  | nil => intro i res _ _; exact ⟨res, rfl⟩
  | cons p rest ih =>
    intro i res hall hlen
    obtain ⟨⟨r, hp⟩, hrest⟩ := allStr_cons p rest hall
    subst hp
    rw [parseLoop]
    have h : i < lines.length := by simp at hlen; omega
    rw [dif_pos h]
    cases mf r (lines.get ⟨i, h⟩) with
    | some gd =>
      exact ih (i + 1) (updateGroupdict res gd) hrest (by simp at hlen ⊢; omega)
    | none => exact ih (i + 1) res hrest (by simp at hlen ⊢; omega)

theorem parseLoop_append_strs (mf : MatchFn) (lines : List String) (tail : List Pattern) :
    ∀ (pre : List Pattern) (i : Nat) (res : Record),
      allStr pre = true → i + pre.length ≤ lines.length →
      ∃ res2, parseLoop mf lines i res (pre ++ tail)
        = parseLoop mf lines (i + pre.length) res2 tail := by
  intro pre
  induction pre with
  | nil => intro i res _ _; exact ⟨res, by simp⟩
  | cons p rest ih =>
    intro i res hall hlen
    obtain ⟨⟨r, hp⟩, hrest⟩ := allStr_cons p rest hall
    subst hp
    have h : i < lines.length := by simp at hlen; omega
    have harith : i + (Pattern.str r :: rest).length = i + 1 + rest.length := by
      simp
      omega
    rw [List.cons_append, parseLoop, dif_pos h, harith]
    cases mf r (lines.get ⟨i, h⟩) with
    | some gd =>
      exact ih (i + 1) (updateGroupdict res gd) hrest (by simp at hlen ⊢; omega)
    | none => exact ih (i + 1) res hrest (by simp at hlen ⊢; omega)

/-! ## Claim C3 — short chunks -/

/-- C3 counterexample: a one-line chunk with two single-regex patterns.
The second iteration reads `lines[1]`, which raises IndexError: the
out-of-range access is not guarded, so extraction fails. -/
theorem c3_counterexample :
    (linesOf "x").length = 1
    ∧ parse_data_by_regex (fun _ _ => none) "x" [Pattern.str "a", Pattern.str "b"]
      = .error PyError.indexError :=
  ⟨by decide, by decide⟩

/-- C3 (amended): for every chunk whose line count is smaller than the
number of single-regex pattern specs, extraction fails with an
index-out-of-range error — the access is unguarded and fatal. -/
theorem c3_short_chunk_amended (mf : MatchFn) (data : String) (ps : List Pattern)
    (hstr : allStr ps = true) (hlen : (linesOf data).length < ps.length) :
    parse_data_by_regex mf data ps = .error PyError.indexError := by
  have hne : ps ≠ [] := by
    intro h
    subst h
    simp at hlen
  exact parseLoop_allStr_short mf (linesOf data) ps 0 [] hstr (by omega) hne

/-- C3 witness: the amended statement at a concrete short chunk. -/
theorem c3_short_chunk_witness :
    allStr [Pattern.str "a", Pattern.str "b"] = true
    ∧ (linesOf "x").length < ([Pattern.str "a", Pattern.str "b"] : List Pattern).length
    ∧ parse_data_by_regex (fun _ _ => none) "x" [Pattern.str "a", Pattern.str "b"]
      = .error PyError.indexError :=
  ⟨by decide, by decide,
   c3_short_chunk_amended (fun _ _ => none) "x" [Pattern.str "a", Pattern.str "b"]
     (by decide) (by decide)⟩

/-! ## Claim C4 — malformed pattern specs -/

/-- C4 counterexample: the pattern list holds a malformed spec (a
non-string non-tuple at index 2), yet the pipeline does not fail with a
configuration error naming index 2: parsing the one-line chunk hits the
unguarded `lines[1]` first and fails with IndexError, because pattern
validation only happens lazily inside the per-chunk loop, not at
construction time before data is processed. -/
theorem c4_counterexample :
    process_txt_file (fun _ _ => none) "x"
        [Pattern.str "a", Pattern.str "b", Pattern.other] "\n\n"
      = .error PyError.indexError
    ∧ isConfigErrorAt PyError.indexError 2 = false :=
  ⟨by decide, by decide⟩

/-- C4 (amended): a malformed pattern spec — neither a regex string nor
a two-element tuple — makes extraction fail with a ValueError naming
the offending index, but only when the per-chunk loop reaches that
index during data processing (mid-run) and no earlier pattern has
failed first; here: single-regex patterns before it, all within the
chunk's line count. -/
theorem c4_malformed_pattern_amended (mf : MatchFn) (data : String)
    (pre : List Pattern) (p : Pattern) (rest : List Pattern)
    (hstr : allStr pre = true) (hlen : pre.length ≤ (linesOf data).length)
    (hbad : isMalformed p = true) :
    resultIsConfigErrorAt (parse_data_by_regex mf data (pre ++ p :: rest))
      pre.length = true := by
  obtain ⟨res2, hres⟩ :=
    parseLoop_append_strs mf (linesOf data) (p :: rest) pre 0 [] hstr (by omega)
  rw [parse_data_by_regex, hres]
  cases p with
  | str r => simp [isMalformed] at hbad
  | other =>
    rw [parseLoop]
    simp [resultIsConfigErrorAt, isConfigErrorAt]
  | tup elems =>
    cases elems with
    | nil => simp [isMalformed] at hbad
    | cons a t1 =>
      cases t1 with
      | nil => simp [isMalformed] at hbad
      | cons b t2 =>
        cases t2 with
        | nil => simp [isMalformed] at hbad
        | cons c t3 =>
          rw [parseLoop]
          simp [resultIsConfigErrorAt, isConfigErrorAt]

/-- C4 witness: a malformed pattern at index 1 of a one-line chunk. -/
theorem c4_malformed_pattern_witness :
    allStr [Pattern.str "a"] = true
    ∧ ([Pattern.str "a"] : List Pattern).length ≤ (linesOf "x").length
    ∧ isMalformed Pattern.other = true
    ∧ resultIsConfigErrorAt
        (parse_data_by_regex (fun _ _ => none) "x" [Pattern.str "a", Pattern.other])
        1 = true :=
  ⟨by decide, by decide, by decide,
   c4_malformed_pattern_amended (fun _ _ => none) "x" [Pattern.str "a"] Pattern.other []
     (by decide) (by decide) (by decide)⟩

/-! ## Claim C5 — one record per chunk -/

theorem parse_allStr_ok (mf : MatchFn) (c : String) (ps : List Pattern)
    (hstr : allStr ps = true) (hlen : ps.length ≤ (linesOf c).length) :
    parse_data_by_regex mf c ps = .ok (parse_ok mf c ps) := by
  obtain ⟨r, hr⟩ := parseLoop_allStr_ok mf (linesOf c) ps 0 [] hstr (by omega)
  have h2 : parse_data_by_regex mf c ps = .ok r := hr
  rw [h2]
  simp only [parse_ok, h2]

theorem processChunks_ok (mf : MatchFn) (ps : List Pattern) (hstr : allStr ps = true) :
    ∀ chunks : List String,
      chunks.all (fun c => decide (ps.length ≤ (linesOf c).length)) = true →
      processChunks mf ps chunks = .ok (chunks.map (fun c => parse_ok mf c ps)) := by
  intro chunks
  induction chunks with
  | nil => intro _; rfl
  | cons c rest ih =>
    intro hall
    rw [List.all_cons, Bool.and_eq_true] at hall
    obtain ⟨h1, h2⟩ := hall
    have hlen : ps.length ≤ (linesOf c).length := of_decide_eq_true h1
    rw [processChunks, parse_allStr_ok mf c ps hstr hlen, ih h2]
    rfl

/-- C5 counterexample: the text is one chunk of one line and there is
one pattern spec, yet extraction returns no record at all: a
`(regex, delimiter)` pattern whose regex matches the line with zero
named groups (in Python, e.g. `re.match("x", "x")`) makes
`list(match.groupdict().keys())[0]` raise IndexError. -/
theorem c5_counterexample :
    (pySplit "x" "\n\n").length = 1
    ∧ (linesOf "x").length = 1
    ∧ process_txt_file (fun _ _ => some []) "x" [Pattern.tup ["x", ","]] "\n\n"
      = .error PyError.indexError :=
  ⟨by decide, by decide, by decide⟩

/-- C5 (amended): when every pattern spec is a single regex string and
each chunk has at least as many lines as there are pattern specs,
extraction returns exactly one record per chunk, in chunk order. -/
theorem c5_chunk_count_amended (mf : MatchFn) (content : String) (ps : List Pattern)
    (delim : String)
    (hstr : allStr ps = true)
    (hlen : (pySplit content delim).all
        (fun c => decide (ps.length ≤ (linesOf c).length)) = true) :
    process_txt_file mf content ps delim
      = .ok ((pySplit content delim).map (fun c => parse_ok mf c ps))
    ∧ ((pySplit content delim).map (fun c => parse_ok mf c ps)).length
      = (pySplit content delim).length := by
  refine ⟨?_, by simp⟩
  rw [process_txt_file]
  exact processChunks_ok mf ps hstr (pySplit content delim) hlen

/-- C5 witness: two chunks, one single-regex pattern, two records in
chunk order. -/
theorem c5_chunk_count_witness :
    allStr [Pattern.str "p"] = true
    ∧ (pySplit "a\n\nb" "\n\n").all
        (fun c => decide (([Pattern.str "p"] : List Pattern).length ≤ (linesOf c).length))
      = true
    ∧ process_txt_file (fun _ _ => some [("k", some "v")]) "a\n\nb" [Pattern.str "p"] "\n\n"
      = .ok ((pySplit "a\n\nb" "\n\n").map
          (fun c => parse_ok (fun _ _ => some [("k", some "v")]) c [Pattern.str "p"]))
    ∧ ((pySplit "a\n\nb" "\n\n").map
          (fun c => parse_ok (fun _ _ => some [("k", some "v")]) c [Pattern.str "p"])).length
      = (pySplit "a\n\nb" "\n\n").length :=
  ⟨by decide, by decide,
   (c5_chunk_count_amended (fun _ _ => some [("k", some "v")]) "a\n\nb" [Pattern.str "p"]
     "\n\n" (by decide) (by decide)).1,
   (c5_chunk_count_amended (fun _ _ => some [("k", some "v")]) "a\n\nb" [Pattern.str "p"]
     "\n\n" (by decide) (by decide)).2⟩

/-! ## Modifier-pipeline lemmas -/

theorem applyFieldLoop_pre (f : Value → Option Value) (col : String) (e : Record)
    (post : List Record) (hfail : failsField f col e = true) :
    ∀ pre : List Record, pre.all (passesField f col) = true →
      applyFieldLoop f col (pre ++ e :: post)
        = (pre.map (applyField1 f col) ++ e :: post, some e, true) := by
  intro pre
  induction pre with
  | nil =>
    intro _
    rw [List.nil_append, applyFieldLoop]
    unfold failsField at hfail
    cases hv : pyGet? e col with
    | none => rw [hv] at hfail; simp at hfail
    | some v =>
      rw [hv] at hfail
      simp only [] at hfail
      cases hf : f v with
      | some w => simp [hf] at hfail
      | none => simp [hv, hf]
  | cons r pre2 ih =>
    intro hall
    rw [List.all_cons, Bool.and_eq_true] at hall
    obtain ⟨h1, h2⟩ := hall
    rw [List.cons_append, applyFieldLoop]
    unfold passesField at h1
    cases hv : pyGet? r col with
    | none => simp [hv, applyField1, ih h2]
    | some v =>
      rw [hv] at h1
      simp only [] at h1
      cases hf : f v with
      | none => simp [hf] at h1
      | some w => simp [hv, hf, applyField1, ih h2]

/-! ## Claim C2 — failure isolation inside a field-scoped modifier -/

/-- C2 counterexample: five records, one field-scoped modifier whose
func raises on the FIRST record.  The claim demands the other four
records updated; the code's `try` wraps the whole per-record loop, so
the failure abandons the remaining iterations: all five records come
back (none dropped, one warning pair logged) but records two to five
are NOT updated — the update the claim requires (second conjunct) is
not the identity. -/
theorem c2_counterexample :
    applyModifiers
        [[("f", Value.vStr "a1")], [("f", Value.vStr "a2")], [("f", Value.vStr "a3")],
         [("f", Value.vStr "a4")], [("f", Value.vStr "a5")]]
        [Modifier.fieldScoped "m"
          (fun v => if v = Value.vStr "a1" then none else some (Value.vStr "X")) "f"]
      = .ok ([[("f", Value.vStr "a1")], [("f", Value.vStr "a2")], [("f", Value.vStr "a3")],
              [("f", Value.vStr "a4")], [("f", Value.vStr "a5")]],
             [⟨"m", [("f", Value.vStr "a1")]⟩])
    ∧ applyField1 (fun v => if v = Value.vStr "a1" then none else some (Value.vStr "X")) "f"
        [("f", Value.vStr "a2")]
      ≠ [("f", Value.vStr "a2")] :=
  ⟨by decide, by decide⟩

/-- C2 (amended): when a field-scoped modifier's func raises on a
record, warnings identifying the modifier and that record are logged
and the pipeline continues with the remaining modifiers without
aborting, with no record dropped; but the modifier's remaining records
are abandoned: the records before the failing one keep their updates,
the failing record and every later record are left unchanged by that
modifier. -/
theorem c2_modifier_failure_amended (name col : String) (f : Value → Option Value)
    (pre : List Record) (e : Record) (post : List Record) (rest : List Modifier)
    (hpre : pre.all (passesField f col) = true)
    (he : failsField f col e = true) :
    applyModifiers (pre ++ e :: post) (Modifier.fieldScoped name f col :: rest)
      = applyModifiersAux (some e) [⟨name, e⟩]
          (pre.map (applyField1 f col) ++ e :: post) rest
    ∧ (pre.map (applyField1 f col) ++ e :: post).length = (pre ++ e :: post).length := by
  constructor
  · rw [applyModifiers, applyModifiersAux, applyFieldLoop_pre f col e post he pre hpre]
    rfl
  · simp

/-- C2 witness: one passing record, then the failing one, then an
untouched record; the pipeline hands the partly-updated collection and
the single warning to the (empty) remaining modifier list. -/
theorem c2_modifier_failure_witness :
    ([[("f", Value.vStr "b")]] : List Record).all
        (passesField (fun v => if v = Value.vStr "a1" then none else some (Value.vStr "X")) "f")
      = true
    ∧ failsField (fun v => if v = Value.vStr "a1" then none else some (Value.vStr "X")) "f"
        [("f", Value.vStr "a1")] = true
    ∧ applyModifiers ([[("f", Value.vStr "b")]] ++ [("f", Value.vStr "a1")] :: [[]])
        [Modifier.fieldScoped "m"
          (fun v => if v = Value.vStr "a1" then none else some (Value.vStr "X")) "f"]
      = applyModifiersAux (some [("f", Value.vStr "a1")])
          [⟨"m", [("f", Value.vStr "a1")]⟩]
          (([[("f", Value.vStr "b")]] : List Record).map
              (applyField1
                (fun v => if v = Value.vStr "a1" then none else some (Value.vStr "X")) "f")
            ++ [("f", Value.vStr "a1")] :: [[]]) []
    ∧ (([[("f", Value.vStr "b")]] : List Record).map
          (applyField1
            (fun v => if v = Value.vStr "a1" then none else some (Value.vStr "X")) "f")
        ++ [("f", Value.vStr "a1")] :: [[]]).length
      = ([[("f", Value.vStr "b")]] ++ [("f", Value.vStr "a1")] :: [[]] : List Record).length :=
  ⟨by decide, by decide,
   (c2_modifier_failure_amended "m" "f"
     (fun v => if v = Value.vStr "a1" then none else some (Value.vStr "X"))
     [[("f", Value.vStr "b")]] [("f", Value.vStr "a1")] [[]] []
     (by decide) (by decide)).1,
   (c2_modifier_failure_amended "m" "f"
     (fun v => if v = Value.vStr "a1" then none else some (Value.vStr "X"))
     [[("f", Value.vStr "b")]] [("f", Value.vStr "a1")] [[]] []
     (by decide) (by decide)).2⟩

/-! ## Claim C9 — whole-collection failure with unbound loop variable -/

theorem runWithoutEntry_name_error (name2 : String)
    (f : List Record → Option (List Record)) (rest : List Modifier) :
    ∀ (pre : List Modifier) (data d2 : List Record) (w : List Warning),
      runWithoutEntry data pre = some d2 → f d2 = none →
      applyModifiersAux none w data (pre ++ Modifier.whole name2 f :: rest)
        = .error PyError.nameError := by
  intro pre
  induction pre with
  | nil =>
    intro data d2 w hrun hf
    simp only [runWithoutEntry, Option.some.injEq] at hrun
    subst hrun
    rw [List.nil_append, applyModifiersAux, hf]
  | cons m pre2 ih =>
    intro data d2 w hrun hf
    cases m with
    | whole n g =>
      simp only [runWithoutEntry] at hrun
      cases hg : g data with
      | none => rw [hg] at hrun; exact Option.noConfusion hrun
      | some d3 =>
        rw [hg] at hrun
        rw [List.cons_append, applyModifiersAux, hg]
        exact ih d3 d2 w hrun hf
    | fieldScoped n g c =>
      cases data with
      | cons r drest =>
        simp only [runWithoutEntry] at hrun
        exact Option.noConfusion hrun
      | nil =>
        simp only [runWithoutEntry] at hrun
        rw [List.cons_append, applyModifiersAux]
        exact ih [] d2 w hrun hf

/-- C9: when the first raising modifier is a whole-collection function
and everything before it ran without ever binding the loop variable
`entry` (whole-collection modifiers that succeed, or field-scoped
modifiers over an empty collection), `apply_modifiers` does not
continue: its except-handler prints the unbound `entry` and the call
itself aborts with NameError. -/
theorem c9_whole_modifier_name_error (data d2 : List Record) (pre : List Modifier)
    (name : String) (f : List Record → Option (List Record)) (rest : List Modifier)
    (hrun : runWithoutEntry data pre = some d2) (hf : f d2 = none) :
    applyModifiers data (pre ++ Modifier.whole name f :: rest)
      = .error PyError.nameError := by
  cases pre with
  | nil =>
    rw [List.nil_append, applyModifiers]
    exact runWithoutEntry_name_error name f rest [] data d2 [] hrun hf
  | cons m pre2 =>
    rw [List.cons_append, applyModifiers]
    exact runWithoutEntry_name_error name f rest (m :: pre2) data d2 [] hrun hf

/-- C9 witness: a single failing whole-collection modifier aborts the
batch with NameError. -/
theorem c9_whole_modifier_name_error_witness :
    runWithoutEntry ([] : List Record) [] = some []
    ∧ applyModifiers [] [Modifier.whole "m" (fun _ => none)] = .error PyError.nameError :=
  ⟨rfl, c9_whole_modifier_name_error [] [] [] "m" (fun _ => none) [] rfl rfl⟩

/-! ## Claim C10 — enrichment requires "hanja" and "words" -/

theorem getAll_hanja_error :
    ∀ input : List Record,
      input.any (fun r => (pyGet? r "hanja").isNone) = true →
      getAll "hanja" input = .error (PyError.keyError "hanja") := by
  intro input
  induction input with
  | nil => intro h; simp at h
  | cons r rest ih =>
    intro hany
    rw [List.any_cons, Bool.or_eq_true] at hany
    cases hv : pyGet? r "hanja" with
    | none => rw [getAll, hv]
    | some v =>
      have hrest : rest.any (fun r => (pyGet? r "hanja").isNone) = true := by
        rcases hany with h | h
        · rw [hv] at h; simp at h
        · exact h
      rw [getAll, hv, ih hrest]

theorem getAll_hanja_ok :
    ∀ input : List Record,
      input.all (fun r => (pyGet? r "hanja").isSome) = true →
      ∃ vs, getAll "hanja" input = .ok vs := by
  intro input
  induction input with
  | nil => intro _; exact ⟨[], rfl⟩
  | cons r rest ih =>
    intro hall
    rw [List.all_cons, Bool.and_eq_true] at hall
    obtain ⟨h1, h2⟩ := hall
    obtain ⟨v, hv⟩ := Option.isSome_iff_exists.mp h1
    obtain ⟨vs, hvs⟩ := ih h2
    exact ⟨v :: vs, by rw [getAll, hv, hvs]⟩

theorem getPairs_words_error :
    ∀ input : List Record,
      input.all (fun r => (pyGet? r "hanja").isSome) = true →
      input.any (fun r => (pyGet? r "words").isNone) = true →
      getPairs input = .error (PyError.keyError "words") := by
  intro input
  induction input with
  | nil => intro _ h; simp at h
  | cons r rest ih =>
    intro hall hany
    rw [List.all_cons, Bool.and_eq_true] at hall
    obtain ⟨h1, h2⟩ := hall
    obtain ⟨hv, hh⟩ := Option.isSome_iff_exists.mp h1
    rw [List.any_cons, Bool.or_eq_true] at hany
    cases hw : pyGet? r "words" with
    | none => rw [getPairs, hh, hw]
    | some w =>
      have hrest : rest.any (fun r => (pyGet? r "words").isNone) = true := by
        rcases hany with h | h
        · rw [hw] at h; simp at h
        · exact h
      rw [getPairs, hh, hw, ih h2 hrest]

theorem scrape_data_missing_key (sh : List Value → List Record)
    (sw : List (Value × Value) → List Record) (input : List Record) (ks : List String)
    (hbad : input.any badHanjaWords = true) :
    failsWithHanjaWordsKeyError (scrape_data sh sw input ks) = true := by
  cases hH : input.all (fun r => (pyGet? r "hanja").isSome) with
  | false =>
    have hany : input.any (fun r => (pyGet? r "hanja").isNone) = true := by
      have h3 : ¬ (input.all (fun r => (pyGet? r "hanja").isSome) = true) := by
        rw [hH]; simp
      rw [List.all_eq_true] at h3
      push_neg at h3
      obtain ⟨r, hr, hnot⟩ := h3
      rw [List.any_eq_true]
      refine ⟨r, hr, ?_⟩
      rw [Option.isNone_iff_eq_none, ← Option.not_isSome_iff_eq_none]
      exact hnot
    have hge := getAll_hanja_error input hany
    simp only [scrape_data, hge]
    simp [failsWithHanjaWordsKeyError]
  | true =>
    have hw : input.any (fun r => (pyGet? r "words").isNone) = true := by
      rw [List.any_eq_true] at hbad ⊢
      obtain ⟨r, hr, hb⟩ := hbad
      refine ⟨r, hr, ?_⟩
      rw [badHanjaWords, Bool.or_eq_true] at hb
      rcases hb with hb | hb
      · rw [List.all_eq_true] at hH
        have h4 := hH r hr
        rw [Option.isNone_iff_eq_none] at hb
        rw [hb] at h4
        simp at h4
      · exact hb
    obtain ⟨vs, hvs⟩ := getAll_hanja_ok input hH
    have hpe := getPairs_words_error input hH hw
    simp only [scrape_data, hvs, hpe]
    simp [failsWithHanjaWordsKeyError]

/-- C10: a record handed to enrichment must hold both `"hanja"` and
`"words"`: when some extracted record lacks either key, `scrape_data`
fails with that KeyError (raised by the two list comprehensions, before
`merge_data_into_dict` runs), and `process_hanja_txt` propagates it. -/
theorem c10_missing_keys (sh : List Value → List Record)
    (sw : List (Value × Value) → List Record)
    (input : List Record) (ks : List String)
    (mf : MatchFn) (content : String) (patterns : List Pattern) (el : String)
    (hm wm : List Modifier)
    (hbad : input.any badHanjaWords = true)
    (hext : process_txt_file mf content patterns "\n\n" = .ok input) :
    failsWithHanjaWordsKeyError (scrape_data sh sw input ks) = true
    ∧ failsWithHanjaWordsKeyError
        (process_hanja_txt mf sh sw content patterns el hm wm) = true := by
  refine ⟨scrape_data_missing_key sh sw input ks hbad, ?_⟩
  have h2 := scrape_data_missing_key sh sw input (dedupKeys (el.splitOn "|")) hbad
  cases hs : scrape_data sh sw input (dedupKeys (el.splitOn "|")) with
  | ok pr => rw [hs] at h2; simp [failsWithHanjaWordsKeyError] at h2
  | error e =>
    rw [hs] at h2
    simp only [process_hanja_txt, hext, hs]
    exact h2

/-- C10 witness: extraction yields a record with `"hanja"` but no
`"words"`; both `scrape_data` and `process_hanja_txt` fail with the
KeyError. -/
theorem c10_missing_keys_witness :
    ([[("hanja", Value.vStr "h")]] : List Record).any badHanjaWords = true
    ∧ process_txt_file (fun _ _ => some [("hanja", some "h")]) "x" [Pattern.str "p"] "\n\n"
      = .ok [[("hanja", Value.vStr "h")]]
    ∧ failsWithHanjaWordsKeyError
        (scrape_data (fun _ => []) (fun _ => []) [[("hanja", Value.vStr "h")]] ["k"]) = true
    ∧ failsWithHanjaWordsKeyError
        (process_hanja_txt (fun _ _ => some [("hanja", some "h")]) (fun _ => []) (fun _ => [])
          "x" [Pattern.str "p"] "k" [] []) = true :=
  ⟨by decide, by decide,
   (c10_missing_keys (fun _ => []) (fun _ => []) [[("hanja", Value.vStr "h")]] ["k"]
     (fun _ _ => some [("hanja", some "h")]) "x" [Pattern.str "p"] "k" [] []
     (by decide) (by decide)).1,
   (c10_missing_keys (fun _ => []) (fun _ => []) [[("hanja", Value.vStr "h")]] ["k"]
     (fun _ _ => some [("hanja", some "h")]) "x" [Pattern.str "p"] "k" [] []
     (by decide) (by decide)).2⟩
